import Mathlib

/-!
Shallow embedding of `src/server.js` (web-bingo): the per-room game engine
`BingoGame` and the socket event handlers that drive it.

Conventions used by the embedding:
* JS `Map` objects (`games`, `game.players`) are insertion-ordered association
  lists; `Map.set` replaces the value in place when the key is present.
* JS `Set` objects (`markedCells`) are `Finset Nat`.
* `Math.floor(Math.random() * len)` is an arbitrary index below `len`; every
  random choice is a parameter (`k % len`, or a stream `rand : Nat → Nat`
  consumed one value per `Math.random()` call, indexed by a running counter).
* A `setInterval` handle is modelled by its presence (`callInterval : Bool`);
  a timer tick can only fire while the handle is present.
* A thrown JS `TypeError` is `Except.error ()`.
-/

inductive Cell where
  | free : Cell
  | num : Nat → Cell
deriving DecidableEq

/-- Column-major 5×5 grid `card[col][row]`, as built by `generateBingoCard`. -/
abbrev Card := List (List Cell)

inductive GState where
  | waiting : GState
  | playing : GState
  | finished : GState
deriving DecidableEq

structure Player where
  id : Nat
  name : String
  card : Card
  markedCells : Finset Nat
deriving DecidableEq

structure Game where
  roomId : String
  players : List (Nat × Player)
  calledNumbers : List Nat
  currentNumber : Option Nat
  gameState : GState
  winner : Option String
  callInterval : Bool
deriving DecidableEq

/-- JS `players.get(k)` on the `Map`. -/
def mapGet (ps : List (Nat × Player)) (k : Nat) : Option Player :=
  (ps.find? (fun p => p.1 == k)).map Prod.snd

/-- JS `players.set(k, v)` on the `Map`: replace in place when the key is
present, append otherwise. -/
def mapSet (ps : List (Nat × Player)) (k : Nat) (v : Player) : List (Nat × Player) :=
  if ps.any (fun p => p.1 == k) then
    ps.map (fun p => if p.1 == k then (k, v) else p)
  else
    ps ++ [(k, v)]

/-- JS `players.delete(k)` on the `Map`. -/
def mapDelete (ps : List (Nat × Player)) (k : Nat) : List (Nat × Player) :=
  ps.filter (fun p => p.1 != k)

/-- The `ranges` table of `generateBingoCard` (lines 47-53). -/
def colRanges : List (Nat × Nat) := [(1, 15), (16, 30), (31, 45), (46, 60), (61, 75)]

/-- Model of `available.splice(randomIndex, 1)[0]` with `randomIndex =
Math.floor(Math.random() * available.length)`: the chosen element and the
remaining pool.  The JS index is always `< available.length`, which `% length`
captures. -/
def spliceOut (available : List Nat) (r : Nat) : Nat × List Nat :=
  let i := r % available.length
  (available.getD i 0, available.eraseIdx i)

/-- The inner row loop of `generateBingoCard` (lines 60-68) for one column:
push `FREE` at `(col = 2, row = 2)`, otherwise splice a random element out of
the remaining pool.  `ctr` is the running index into the random stream. -/
def genColCells (col : Nat) (rand : Nat → Nat) :
    Nat → Nat → List Nat → Nat → List Cell × Nat
  | 0, _, _, ctr => ([], ctr)
  | rowsLeft + 1, row, available, ctr =>
    if col == 2 && row == 2 then
      let rest := genColCells col rand rowsLeft (row + 1) available ctr
      (Cell.free :: rest.1, rest.2)
    else
      let pick := spliceOut available (rand ctr)
      let rest := genColCells col rand rowsLeft (row + 1) pick.2 (ctr + 1)
      (Cell.num pick.1 :: rest.1, rest.2)

/-- The outer column loop of `generateBingoCard` (lines 55-70): each column
starts from the full pool `[min..max]` of its range. -/
def genCols (rand : Nat → Nat) : Nat → Nat → List (Nat × Nat) → List (List Cell)
  | _, _, [] => []
  | col, ctr, (mn, mx) :: rest =>
    let available := List.range' mn (mx - mn + 1)
    let colResult := genColCells col rand 5 0 available ctr
    colResult.1 :: genCols rand (col + 1) colResult.2 rest

/-- Method `BingoGame.generateBingoCard` (lines 45-73), parameterised by the random
stream consumed by its `Math.random()` calls. -/
def generateBingoCard (rand : Nat → Nat) : Card :=
  genCols rand 0 0 colRanges

/-- The `BingoGame` constructor (lines 19-27). -/
def initGame (roomId : String) : Game :=
  { roomId := roomId
    players := []
    calledNumbers := []
    currentNumber := none
    gameState := GState.waiting
    winner := none
    callInterval := false }

/-- Method `BingoGame.addPlayer` (lines 29-36). -/
def addPlayer (g : Game) (socketId : Nat) (playerName : String) (rand : Nat → Nat) : Game :=
  let newPlayer : Player :=
    { id := socketId
      name := playerName
      card := generateBingoCard rand
      markedCells := ∅ }
  { g with players := mapSet g.players socketId newPlayer }

/-- Method `BingoGame.stopGame` (lines 109-114): clear the interval handle. -/
def stopGame (g : Game) : Game :=
  { g with callInterval := false }

/-- Method `BingoGame.removePlayer` (lines 38-43). -/
def removePlayer (g : Game) (socketId : Nat) : Game :=
  let g1 := { g with players := mapDelete g.players socketId }
  if g1.players.length == 0 then stopGame g1 else g1

/-- The `availableNumbers` computation of `BingoGame.callNumber` (lines 92-93):
`[1..75]` minus the numbers already called. -/
def availableNumbers (g : Game) : List Nat :=
  (List.range' 1 75).filter (fun n => ! g.calledNumbers.contains n)

/-- Method `BingoGame.callNumber` (lines 91-107), parameterised by the random choice:
on exhaustion stop the game and return nothing, otherwise pick an available
number, append it to the history and make it current. -/
def callNumber (g : Game) (k : Nat) : Option Nat × Game :=
  let available := availableNumbers g
  if available.isEmpty then
    (none, stopGame g)
  else
    let number := available.getD (k % available.length) 0
    (some number,
      { g with calledNumbers := g.calledNumbers ++ [number], currentNumber := some number })

/-- Method `BingoGame.startGame` (lines 75-89): no-op unless waiting; otherwise enter
`playing`, clear history and winner, install the interval handle and call the
first number immediately (`k` is that draw's random choice). -/
def startGame (g : Game) (k : Nat) : Game :=
  if g.gameState != GState.waiting then g
  else
    let g1 := { g with gameState := GState.playing
                       calledNumbers := []
                       winner := none
                       callInterval := true }
    (callNumber g1 k).2

/-- Constant `freeIndex = 2 * 5 + 2` (line 123). -/
def freeIndex : Nat := 2 * 5 + 2

/-- The line checks of `BingoGame.checkWin` (lines 126-162): rows, columns,
main diagonal, anti-diagonal, each complete when all 5 of its indices are
members of the set. -/
def winLines (markedCells : Finset Nat) : Bool :=
  ((List.range 5).any fun row =>
    ((List.range 5).countP fun col => decide ((row * 5 + col) ∈ markedCells)) == 5) ||
  ((List.range 5).any fun col =>
    ((List.range 5).countP fun row => decide ((row * 5 + col) ∈ markedCells)) == 5) ||
  (((List.range 5).countP fun i => decide ((i * 5 + i) ∈ markedCells)) == 5) ||
  (((List.range 5).countP fun i => decide ((i * 5 + (4 - i)) ∈ markedCells)) == 5)

/-- The WinDetector on a marked set: `checkWin`'s free-cell pre-step (line 124)
followed by the line checks.  (The card itself is never consulted.) -/
def hasWin (markedCells : Finset Nat) : Bool :=
  winLines (insert freeIndex markedCells)

/-- Write back one player; in JS `checkWin` and `markCell` mutate the player
object held in the `players` map in place. -/
def updatePlayer (g : Game) (socketId : Nat) (p : Player) : Game :=
  { g with players := mapSet g.players socketId p }

/-- Method `BingoGame.checkWin` (lines 116-163): `false` for an unknown player;
otherwise add the free index to the player's marked set (a mutation of the
shared `Set`) and run the line checks on the result. -/
def checkWin (g : Game) (socketId : Nat) : Bool × Game :=
  match mapGet g.players socketId with
  | none => (false, g)
  | some player =>
    let marked := insert freeIndex player.markedCells
    (winLines marked, updatePlayer g socketId { player with markedCells := marked })

/-- Outbound socket events the handlers emit.  Events carrying a `socketId`
are sent to that socket only; `playerJoined`, `gameWon`, `numberCalled` are
broadcast to the whole room. -/
inductive Event where
  | gameJoined (socketId : Nat) (card : Card) (playerName : String)
  | playerJoined (playerName : String) (playerCount : Nat)
  | cellMarked (socketId : Nat) (row col : Int)
  | gameWon (winner : String) (winningCard : Card) (markedCells : Finset Nat)
  | invalidBingo (socketId : Nat)
  | gameReset (socketId : Nat) (card : Card)
deriving DecidableEq

/-- The `joinGame` handler's per-room effect (lines 181-209): default the
display name from the current player count, add the player, send them their
card and broadcast the new count. -/
def joinGame (g : Game) (socketId : Nat) (playerName : String) (rand : Nat → Nat) :
    Game × List Event :=
  let resolvedName :=
    if playerName = "" then "Player " ++ toString (g.players.length + 1) else playerName
  let g1 := addPlayer g socketId resolvedName rand
  match mapGet g1.players socketId with
  | none => (g1, [])
  | some player =>
    (g1, [Event.gameJoined socketId player.card player.name,
          Event.playerJoined player.name g1.players.length])

/-- JS array indexing with an arbitrary integer index: `undefined` (`none`)
outside `0 ≤ i < length`. -/
def jsIndex {α : Type} (l : List α) (i : Int) : Option α :=
  if 0 ≤ i then l[i.toNat]? else none

/-- The `markCell` handler (lines 223-241) with JS index semantics over
arbitrary integer `row`/`col`: `player.card[col]` out of bounds is `undefined`
and `undefined[row]` throws (`Except.error`); an out-of-bounds `row` merely
yields `undefined`, which is neither `FREE` nor a called number, so nothing is
marked.  In the marking branch the cell exists, hence `0 ≤ row, col < 5` and
the JS index `row * 5 + col` is the natural number `(row * 5 + col).toNat`. -/
def markCell (g : Game) (socketId : Nat) (row col : Int) : Except Unit (Game × List Event) :=
  match mapGet g.players socketId with
  | none => Except.ok (g, [])
  | some player =>
    match jsIndex player.card col with
    | none => Except.error ()
    | some column =>
      let cellValue := jsIndex column row
      let shouldMark :=
        match cellValue with
        | some Cell.free => true
        | some (Cell.num v) => g.calledNumbers.contains v
        | none => false
      if shouldMark then
        Except.ok
          (updatePlayer g socketId
            { player with markedCells := insert (row * 5 + col).toNat player.markedCells },
           [Event.cellMarked socketId row col])
      else
        Except.ok (g, [])

/-- The `claimBingo` handler (lines 243-270): no-op unless playing with a
known player; on a win enter `finished`, record the winner, stop the timer and
broadcast the win (the broadcast reads the marked set `checkWin` just mutated,
so it contains the free index); otherwise reject the claimant only. -/
def claimBingo (g : Game) (socketId : Nat) : Game × List Event :=
  if g.gameState != GState.playing then (g, [])
  else
    match mapGet g.players socketId with
    | none => (g, [])
    | some player =>
      let res := checkWin g socketId
      if res.1 then
        let g2 := stopGame { res.2 with gameState := GState.finished, winner := some player.name }
        (g2, [Event.gameWon player.name player.card (insert freeIndex player.markedCells)])
      else
        (res.2, [Event.invalidBingo socketId])

/-- The `newGame` handler (lines 272-301): stop the timer, reset the draw
state to waiting, regenerate every player's card (each card-generation call
consumes its own fresh random stream, `rands i` for the player at position
`i`) with an empty marked set, and send each player their new card. -/
def newGame (g : Game) (rands : Nat → Nat → Nat) : Game × List Event :=
  let g1 := stopGame g
  let g2 := { g1 with calledNumbers := []
                      currentNumber := none
                      gameState := GState.waiting
                      winner := none }
  let players2 := g2.players.enum.map (fun e =>
    (e.2.1, { e.2.2 with card := generateBingoCard (rands e.1)
                         markedCells := (∅ : Finset Nat) }))
  let g3 := { g2 with players := players2 }
  (g3, g3.players.map (fun p => Event.gameReset p.1 p.2.card))

/-- One inbound event or timer tick against a single room, with all random
choices carried as data. -/
inductive Op where
  | join (socketId : Nat) (playerName : String) (rand : Nat → Nat)
  | leave (socketId : Nat)
  | start (k : Nat)
  | mark (socketId : Nat) (row col : Int)
  | claim (socketId : Nat)
  | reset (rands : Nat → Nat → Nat)
  | tick (k : Nat)

def Op.isReset : Op → Bool
  | Op.reset _ => true
  | _ => false

/-- Apply one operation to the room.  A `tick` is the `setInterval` callback
(line 83-85): it can only fire while the handle is installed.  A `mark` that
throws leaves the room state as it was at the throw point (nothing had been
mutated yet). -/
def step (g : Game) : Op → Game
  | Op.join socketId playerName rand => (joinGame g socketId playerName rand).1
  | Op.leave socketId => removePlayer g socketId
  | Op.start k => startGame g k
  | Op.mark socketId row col =>
    match markCell g socketId row col with
    | Except.ok r => r.1
    | Except.error _ => g
  | Op.claim socketId => (claimBingo g socketId).1
  | Op.reset rands => (newGame g rands).1
  | Op.tick k => if g.callInterval then (callNumber g k).2 else g

def applyOps (g : Game) (ops : List Op) : Game :=
  ops.foldl step g

/-- Repeated draws (`callNumber`) with the given random choices. -/
def runDraws (g : Game) (ks : List Nat) : Game :=
  ks.foldl (fun g k => (callNumber g k).2) g

/-- The cell indices of row `row`. -/
def rowLine (row : Nat) : Finset Nat :=
  ((List.range 5).map (fun col => row * 5 + col)).toFinset

/-- The cell indices of column `col`. -/
def colLine (col : Nat) : Finset Nat :=
  ((List.range 5).map (fun row => row * 5 + col)).toFinset

/-- The main-diagonal cell indices. -/
def diagLine : Finset Nat :=
  ((List.range 5).map (fun i => i * 5 + i)).toFinset

/-- The anti-diagonal cell indices. -/
def antiDiagLine : Finset Nat :=
  ((List.range 5).map (fun i => i * 5 + (4 - i))).toFinset

/-- All 12 winning lines. -/
def allLines : List (Finset Nat) :=
  (List.range 5).map rowLine ++ (List.range 5).map colLine ++ [diagLine, antiDiagLine]

/-! ### The win detector on complete and on 4-of-5 lines (C1) -/

lemma countP_range5 (p : Nat → Bool) :
    (((List.range 5).countP p) == 5) = true ↔ ∀ i, i < 5 → p i = true := by
  rw [beq_iff_eq]
  constructor
  · intro h i hi
    exact List.countP_eq_length.mp (by rw [h, List.length_range]) i (List.mem_range.mpr hi)
  · intro h
    rw [List.countP_eq_length.mpr (fun i hi => h i (List.mem_range.mp hi)), List.length_range]

lemma winLines_iff (m : Finset Nat) :
    winLines m = true ↔
      (∃ row, row < 5 ∧ ∀ col, col < 5 → row * 5 + col ∈ m) ∨
      (∃ col, col < 5 ∧ ∀ row, row < 5 → row * 5 + col ∈ m) ∨
      (∀ i, i < 5 → i * 5 + i ∈ m) ∨
      (∀ i, i < 5 → i * 5 + (4 - i) ∈ m) := by
  unfold winLines
  simp only [Bool.or_eq_true, List.any_eq_true, List.mem_range, countP_range5,
    decide_eq_true_eq]
  simp only [or_assoc]

lemma line_subset_winLines (L m : Finset Nat) (hL : L ∈ allLines) (hsub : L ⊆ m) :
    winLines m = true := by
  rw [winLines_iff]
  simp only [allLines, List.mem_append, List.mem_map, List.mem_range, List.mem_cons,
    List.mem_singleton, List.not_mem_nil, or_false] at hL
  rcases hL with ((⟨r, hr, rfl⟩ | ⟨c, hc, rfl⟩) | rfl | rfl)
  · refine Or.inl ⟨r, hr, fun col hcol => hsub ?_⟩
    simp only [rowLine, List.mem_toFinset, List.mem_map, List.mem_range]
    exact ⟨col, hcol, rfl⟩
  · refine Or.inr (Or.inl ⟨c, hc, fun row hrow => hsub ?_⟩)
    simp only [colLine, List.mem_toFinset, List.mem_map, List.mem_range]
    exact ⟨row, hrow, rfl⟩
  · refine Or.inr (Or.inr (Or.inl fun i hi => hsub ?_))
    simp only [diagLine, List.mem_toFinset, List.mem_map, List.mem_range]
    exact ⟨i, hi, rfl⟩
  · refine Or.inr (Or.inr (Or.inr fun i hi => hsub ?_))
    simp only [antiDiagLine, List.mem_toFinset, List.mem_map, List.mem_range]
    exact ⟨i, hi, rfl⟩

/-- C1 (amended): `hasWin` is true whenever the marked set covers all 5 cells
of some line (row 0, column 0, main diagonal and anti-diagonal included), and
false on a marked set holding exactly 4 of the 5 cells of a line, provided the
missing fifth cell is not the Free cell; a 4-of-5 line missing only the Free
cell is reported as a win, because the detector always treats the Free index
as marked. -/
theorem C1_winDetector_lines (m L : Finset Nat) (hL : L ∈ allLines) :
    (L ⊆ m → hasWin m = true) ∧
    (∀ c ∈ L, c ≠ freeIndex → hasWin (L.erase c) = false) := by
  constructor
  · intro hsub
    unfold hasWin
    exact line_subset_winLines L (insert freeIndex m) hL
      (hsub.trans (Finset.subset_insert _ _))
  · have hdec : ∀ L' ∈ allLines, ∀ c ∈ L', c ≠ freeIndex →
        hasWin (L'.erase c) = false := by decide
    exact hdec L hL

/-- C1 witness: row 0 fully marked is a win; row 0 with cell 0 unmarked is
not. -/
theorem C1_witness :
    hasWin {0, 1, 2, 3, 4} = true ∧ hasWin ((rowLine 0).erase 0) = false :=
  ⟨(C1_winDetector_lines {0, 1, 2, 3, 4} (rowLine 0) (by decide)).1 (by decide),
   (C1_winDetector_lines {0, 1, 2, 3, 4} (rowLine 0) (by decide)).2 0 (by decide) (by decide)⟩

/-- C1 counterexample: the marked set covering exactly the 4 non-Free cells of
row 2 — 4 of the 5 cells of a line — is reported as a win, refuting the
claim's unconditional "false for any 4-of-5 partial line". -/
theorem C1_counterexample :
    (rowLine 2).erase freeIndex ⊆ rowLine 2 ∧
    ((rowLine 2).erase freeIndex).card = 4 ∧
    hasWin ((rowLine 2).erase freeIndex) = true := by decide

/-! ### Facts about the JS `Map` model -/

lemma mapGet_mem (ps : List (Nat × Player)) (k : Nat) (p : Player)
    (h : mapGet ps k = some p) : (k, p) ∈ ps := by
  unfold mapGet at h
  cases hf : ps.find? (fun q => q.1 == k) with
  | none => simp [hf] at h
  | some e =>
    have he : (e.1 == k) = true := @List.find?_some _ (fun q => q.1 == k) e ps hf
    have hm : e ∈ ps := List.mem_of_find?_eq_some hf
    simp only [hf, Option.map_some', Option.some.injEq] at h
    obtain ⟨e1, e2⟩ := e
    simp only [beq_iff_eq] at he
    subst he
    subst h
    exact hm

lemma mapGet_any (ps : List (Nat × Player)) (k : Nat) (p : Player)
    (h : mapGet ps k = some p) : ps.any (fun q => q.1 == k) = true :=
  List.any_eq_true.mpr ⟨(k, p), mapGet_mem ps k p h, by simp⟩

lemma mapSet_of_present (ps : List (Nat × Player)) (k : Nat) (v p : Player)
    (h : mapGet ps k = some p) :
    mapSet ps k v = ps.map (fun q => if q.1 == k then (k, v) else q) := by
  unfold mapSet
  rw [if_pos (mapGet_any ps k p h)]

lemma length_mapSet_of_present (ps : List (Nat × Player)) (k : Nat) (v p : Player)
    (h : mapGet ps k = some p) : (mapSet ps k v).length = ps.length := by
  rw [mapSet_of_present ps k v p h, List.length_map]

lemma find?_map_replace (k : Nat) (v : Player) (ps : List (Nat × Player))
    (h : (mapGet ps k).isSome = true) :
    (ps.map (fun q => if q.1 == k then (k, v) else q)).find? (fun q => q.1 == k) =
      some (k, v) := by
  induction ps with
  | nil => simp [mapGet] at h
  | cons e t ih =>
    by_cases he : (e.1 == k) = true
    · simp only [List.map_cons, if_pos he]
      simp [List.find?_cons]
    · simp only [List.map_cons, if_neg he]
      rw [List.find?_cons]
      simp only [he]
      apply ih
      unfold mapGet at h ⊢
      rw [List.find?_cons] at h
      simp only [he] at h
      exact h

lemma mapGet_mapSet_self (ps : List (Nat × Player)) (k : Nat) (v p : Player)
    (h : mapGet ps k = some p) : mapGet (mapSet ps k v) k = some v := by
  rw [mapSet_of_present ps k v p h]
  unfold mapGet
  rw [find?_map_replace k v ps (by rw [h]; rfl)]
  rfl

lemma mapSet_mapSet_of_present (ps : List (Nat × Player)) (k : Nat) (v w p : Player)
    (h : mapGet ps k = some p) :
    mapSet (mapSet ps k v) k w = mapSet ps k w := by
  rw [mapSet_of_present (mapSet ps k v) k w v (mapGet_mapSet_self ps k v p h),
    mapSet_of_present ps k v p h, mapSet_of_present ps k w p h, List.map_map]
  apply List.map_congr_left
  intro q _
  by_cases hqk : (q.1 == k) = true <;> simp [Function.comp, hqk]

lemma find?_ne_of_replace (k j : Nat) (v : Player) (hj : j ≠ k)
    (ps : List (Nat × Player)) :
    (ps.map (fun q => if q.1 == k then (k, v) else q)).find? (fun q => q.1 == j) =
      ps.find? (fun q => q.1 == j) := by
  induction ps with
  | nil => rfl
  | cons e t ih =>
    by_cases he : (e.1 == k) = true
    · have he' : e.1 = k := by simpa using he
      have hkj : (k == j) = false := beq_false_of_ne (Ne.symm hj)
      have hej : (e.1 == j) = false := by rw [he']; exact hkj
      simp only [List.map_cons, if_pos he, List.find?_cons, hkj, hej]
      exact ih
    · simp only [List.map_cons, if_neg he, List.find?_cons]
      cases hej : (e.1 == j) with
      | true => rfl
      | false => exact ih

lemma mapGet_mapSet_ne (ps : List (Nat × Player)) (k j : Nat) (v : Player)
    (hj : j ≠ k) : mapGet (mapSet ps k v) j = mapGet ps j := by
  unfold mapSet
  by_cases hany : ps.any (fun q => q.1 == k) = true
  · rw [if_pos hany]
    unfold mapGet
    rw [find?_ne_of_replace k j v hj ps]
  · rw [if_neg hany]
    unfold mapGet
    rw [List.find?_append]
    have hkj : (k == j) = false := beq_false_of_ne (Ne.symm hj)
    have : List.find? (fun q => q.1 == j) [(k, v)] = none := by
      simp [List.find?_cons, hkj]
    rw [this]
    cases ps.find? (fun q => q.1 == j) <;> rfl

/-- A one-player demo room used by concrete witnesses. -/
def demoGame : Game := addPlayer (initGame "room1") 0 "alice" (fun _ => 0)

/-- The player that `demoGame` holds at socket id 0. -/
def demoPlayer : Player :=
  { id := 0, name := "alice", card := generateBingoCard (fun _ => 0), markedCells := ∅ }

/-! ### Rejoining with an existing id (C10) -/

lemma joinGame_fst (g : Game) (socketId : Nat) (playerName : String) (rand : Nat → Nat) :
    (joinGame g socketId playerName rand).1 =
      addPlayer g socketId
        (if playerName = "" then "Player " ++ toString (g.players.length + 1)
         else playerName) rand := by
  rcases h : mapGet (addPlayer g socketId
      (if playerName = "" then "Player " ++ toString (g.players.length + 1)
       else playerName) rand).players socketId with _ | q <;>
    simp [joinGame, h]

/-- C10: joining with a socket id that is already present replaces that
participant's entry in place: the participant count is unchanged and the
entry now holds a freshly generated card and an empty marked set. -/
theorem C10_rejoin_replaces (g : Game) (socketId : Nat) (playerName : String)
    (rand : Nat → Nat) (p0 : Player) (hp : mapGet g.players socketId = some p0) :
    ((joinGame g socketId playerName rand).1.players).length = g.players.length ∧
    mapGet (joinGame g socketId playerName rand).1.players socketId = some
      { id := socketId
        name := if playerName = "" then "Player " ++ toString (g.players.length + 1)
                else playerName
        card := generateBingoCard rand
        markedCells := ∅ } := by
  rw [joinGame_fst]
  unfold addPlayer
  constructor
  · exact length_mapSet_of_present g.players socketId _ p0 hp
  · exact mapGet_mapSet_self g.players socketId _ p0 hp

/-- C10 witness: rejoining the demo room with the same socket id keeps one
player and installs a fresh card with an empty marked set. -/
theorem C10_witness :
    ((joinGame demoGame 0 "bob" (fun _ => 1)).1.players).length =
      demoGame.players.length ∧
    mapGet (joinGame demoGame 0 "bob" (fun _ => 1)).1.players 0 = some
      { id := 0, name := "bob", card := generateBingoCard (fun _ => 1),
        markedCells := ∅ } := by
  have h := C10_rejoin_replaces demoGame 0 "bob" (fun _ => 1) demoPlayer (by decide)
  simpa using h

/-! ### What checkWin does to the room (C6) -/

/-- C6 (amended): `checkWin`'s boolean result is exactly the WinDetector run
on the player's prior marked set, but the check is not side-effect free: its
one side effect is inserting the Free index into the claimant's marked set.
All other room fields, the claimant's other fields, and every other player
are unchanged, and the pre-step is idempotent: a second check returns the
same answer and changes nothing further. -/
theorem C6_checkWin_effect (g : Game) (socketId : Nat) (p : Player)
    (hp : mapGet g.players socketId = some p) :
    checkWin g socketId =
      (hasWin p.markedCells,
        updatePlayer g socketId
          { p with markedCells := insert freeIndex p.markedCells }) ∧
    mapGet ((checkWin g socketId).2).players socketId =
      some { p with markedCells := insert freeIndex p.markedCells } ∧
    (∀ j, j ≠ socketId →
      mapGet ((checkWin g socketId).2).players j = mapGet g.players j) ∧
    ((checkWin g socketId).2).roomId = g.roomId ∧
    ((checkWin g socketId).2).calledNumbers = g.calledNumbers ∧
    ((checkWin g socketId).2).currentNumber = g.currentNumber ∧
    ((checkWin g socketId).2).gameState = g.gameState ∧
    ((checkWin g socketId).2).winner = g.winner ∧
    ((checkWin g socketId).2).callInterval = g.callInterval ∧
    checkWin ((checkWin g socketId).2) socketId = checkWin g socketId := by
  have hcw : checkWin g socketId =
      (winLines (insert freeIndex p.markedCells),
        updatePlayer g socketId
          { p with markedCells := insert freeIndex p.markedCells }) := by
    unfold checkWin
    rw [hp]
  refine ⟨hcw, ?_, ?_, ?_, ?_, ?_, ?_, ?_, ?_, ?_⟩
  · rw [hcw]
    exact mapGet_mapSet_self g.players socketId _ p hp
  · intro j hj
    rw [hcw]
    exact mapGet_mapSet_ne g.players socketId j _ hj
  · rw [hcw]; rfl
  · rw [hcw]; rfl
  · rw [hcw]; rfl
  · rw [hcw]; rfl
  · rw [hcw]; rfl
  · rw [hcw]; rfl
  · rw [hcw]
    unfold checkWin updatePlayer
    simp only [mapGet_mapSet_self g.players socketId
        ({ p with markedCells := insert freeIndex p.markedCells }) p hp,
      Finset.insert_idem,
      mapSet_mapSet_of_present g.players socketId
        ({ p with markedCells := insert freeIndex p.markedCells })
        ({ p with markedCells := insert freeIndex p.markedCells }) p hp]

/-- C6 witness: the effect description instantiated on the demo room. -/
theorem C6_witness :
    checkWin demoGame 0 =
      (hasWin demoPlayer.markedCells,
        updatePlayer demoGame 0
          { demoPlayer with markedCells := insert freeIndex demoPlayer.markedCells }) :=
  (C6_checkWin_effect demoGame 0 demoPlayer (by decide)).1

/-- C6 counterexample: running `checkWin` on the demo player's empty marked
set leaves the stored marked set holding the Free index afterwards, so the
check is not free of side effects as claimed. -/
theorem C6_counterexample :
    (mapGet ((checkWin demoGame 0).2).players 0).map Player.markedCells ≠
      (mapGet demoGame.players 0).map Player.markedCells := by decide

/-! ### claimBingo: rejection (C3) and win (C2) -/

lemma claimBingo_reject_eq (g : Game) (socketId : Nat) (p : Player)
    (hstate : g.gameState = GState.playing)
    (hp : mapGet g.players socketId = some p)
    (hwin : hasWin p.markedCells = false) :
    claimBingo g socketId =
      (updatePlayer g socketId { p with markedCells := insert freeIndex p.markedCells },
       [Event.invalidBingo socketId]) := by
  have hwl : winLines (insert freeIndex p.markedCells) = false := hwin
  unfold claimBingo checkWin
  simp only [hstate, hp, bne_self_eq_false, Bool.false_eq_true, if_false, hwl]

lemma claimBingo_win_eq (g : Game) (socketId : Nat) (p : Player)
    (hstate : g.gameState = GState.playing)
    (hp : mapGet g.players socketId = some p)
    (hwin : hasWin p.markedCells = true) :
    claimBingo g socketId =
      (stopGame { (updatePlayer g socketId
          { p with markedCells := insert freeIndex p.markedCells }) with
            gameState := GState.finished, winner := some p.name },
       [Event.gameWon p.name p.card (insert freeIndex p.markedCells)]) := by
  have hwl : winLines (insert freeIndex p.markedCells) = true := hwin
  unfold claimBingo checkWin
  simp only [hstate, hp, bne_self_eq_false, Bool.false_eq_true, if_false, hwl, if_true]

lemma callNumber_snd_state (g : Game) (k : Nat) :
    ((callNumber g k).2).gameState = g.gameState ∧
    ((callNumber g k).2).winner = g.winner ∧
    ((callNumber g k).2).players = g.players := by
  unfold callNumber
  dsimp only
  split <;> exact ⟨rfl, rfl, rfl⟩

lemma markCell_ok_state (g : Game) (socketId : Nat) (row col : Int) (g' : Game)
    (evts : List Event) (h : markCell g socketId row col = Except.ok (g', evts)) :
    g'.gameState = g.gameState ∧ g'.callInterval = g.callInterval ∧
    g'.calledNumbers = g.calledNumbers ∧ g'.winner = g.winner ∧
    g'.currentNumber = g.currentNumber := by
  unfold markCell at h
  split at h
  · cases h
    exact ⟨rfl, rfl, rfl, rfl, rfl⟩
  · split at h
    · cases h
    · dsimp only at h
      split at h
      · cases h
        exact ⟨rfl, rfl, rfl, rfl, rfl⟩
      · cases h
        exact ⟨rfl, rfl, rfl, rfl, rfl⟩

lemma step_finished (g : Game) (hg : g.gameState = GState.finished) :
    ∀ op : Op, op.isReset = false → (step g op).gameState = GState.finished := by
  intro op hop
  cases op with
  | join socketId playerName rand =>
    show ((joinGame g socketId playerName rand).1).gameState = GState.finished
    rw [joinGame_fst]
    exact hg
  | leave socketId =>
    show (removePlayer g socketId).gameState = GState.finished
    unfold removePlayer
    dsimp only
    split <;> exact hg
  | start k =>
    show (startGame g k).gameState = GState.finished
    unfold startGame
    rw [hg]
    exact hg
  | mark socketId row col =>
    show (match markCell g socketId row col with
      | Except.ok r => r.1
      | Except.error _ => g).gameState = GState.finished
    rcases hmc : markCell g socketId row col with e | ⟨g', evts⟩
    · exact hg
    · exact ((markCell_ok_state g socketId row col g' evts hmc).1).trans hg
  | claim socketId =>
    show ((claimBingo g socketId).1).gameState = GState.finished
    unfold claimBingo
    rw [hg]
    exact hg
  | reset rands => simp [Op.isReset] at hop
  | tick k =>
    show (if g.callInterval = true then (callNumber g k).2 else g).gameState =
      GState.finished
    split
    · exact ((callNumber_snd_state g k).1).trans hg
    · exact hg

lemma applyOps_finished :
    ∀ (ops : List Op) (g : Game), g.gameState = GState.finished →
      (∀ op ∈ ops, op.isReset = false) →
      (applyOps g ops).gameState = GState.finished := by
  intro ops
  induction ops with
  | nil => intro g hg _; exact hg
  | cons op t ih =>
    intro g hg hops
    show (applyOps (step g op) t).gameState = GState.finished
    exact ih (step g op) (step_finished g hg op (hops op (by simp)))
      (fun o ho => hops o (by simp [ho]))

lemma startGame_noop_finished (g : Game) (hg : g.gameState = GState.finished)
    (k : Nat) : startGame g k = g := by
  unfold startGame
  rw [hg]
  rfl

/-- C3: a claim in a playing room by a known participant whose marked set has
no complete line leaves the lifecycle state Playing and the winner, draw
history, current value and timer handle unchanged, emits exactly one
rejection notice to the claimant, and a repeated claim on the resulting room
returns the identical room and the same single rejection — so arbitrarily
many false claims are all rejected without further change. -/
theorem C3_claimBingo_reject (g : Game) (socketId : Nat) (p : Player)
    (hstate : g.gameState = GState.playing)
    (hp : mapGet g.players socketId = some p)
    (hwin : hasWin p.markedCells = false) :
    (claimBingo g socketId).2 = [Event.invalidBingo socketId] ∧
    ((claimBingo g socketId).1).gameState = GState.playing ∧
    ((claimBingo g socketId).1).winner = g.winner ∧
    ((claimBingo g socketId).1).calledNumbers = g.calledNumbers ∧
    ((claimBingo g socketId).1).currentNumber = g.currentNumber ∧
    ((claimBingo g socketId).1).callInterval = g.callInterval ∧
    claimBingo ((claimBingo g socketId).1) socketId =
      ((claimBingo g socketId).1, [Event.invalidBingo socketId]) := by
  have E := claimBingo_reject_eq g socketId p hstate hp hwin
  refine ⟨by rw [E], by rw [E]; exact hstate, by rw [E]; rfl, by rw [E]; rfl,
    by rw [E]; rfl, by rw [E]; rfl, ?_⟩
  rw [E]
  show claimBingo (updatePlayer g socketId
      { p with markedCells := insert freeIndex p.markedCells }) socketId =
    (updatePlayer g socketId
      { p with markedCells := insert freeIndex p.markedCells },
     [Event.invalidBingo socketId])
  have hp2 : mapGet (updatePlayer g socketId
      { p with markedCells := insert freeIndex p.markedCells }).players socketId =
      some { p with markedCells := insert freeIndex p.markedCells } :=
    mapGet_mapSet_self g.players socketId _ p hp
  have hwin2 : hasWin
      ({ p with markedCells := insert freeIndex p.markedCells } : Player).markedCells =
      false := by
    show winLines (insert freeIndex (insert freeIndex p.markedCells)) = false
    rw [Finset.insert_idem]
    exact hwin
  rw [claimBingo_reject_eq (updatePlayer g socketId
      { p with markedCells := insert freeIndex p.markedCells }) socketId
      { p with markedCells := insert freeIndex p.markedCells } hstate hp2 hwin2]
  simp only [Finset.insert_idem, updatePlayer,
    mapSet_mapSet_of_present g.players socketId
      ({ p with markedCells := insert freeIndex p.markedCells })
      ({ p with markedCells := insert freeIndex p.markedCells }) p hp]

/-- C2: a claim in a playing room by a known participant whose marked set
completes a line moves the room to Finished, records the claimant's name as
winner, cancels the draw timer, broadcasts a single win event carrying the
winner name, the full card and the marked indices, and afterwards every
sequence of further operations that contains no reset leaves the room
Finished, on which every start() call is a no-op. -/
theorem C2_claimBingo_win (g : Game) (socketId : Nat) (p : Player)
    (hstate : g.gameState = GState.playing)
    (hp : mapGet g.players socketId = some p)
    (hwin : hasWin p.markedCells = true) :
    (claimBingo g socketId).2 =
      [Event.gameWon p.name p.card (insert freeIndex p.markedCells)] ∧
    ((claimBingo g socketId).1).gameState = GState.finished ∧
    ((claimBingo g socketId).1).winner = some p.name ∧
    ((claimBingo g socketId).1).callInterval = false ∧
    (∀ ops : List Op, (∀ op ∈ ops, op.isReset = false) →
      (applyOps (claimBingo g socketId).1 ops).gameState = GState.finished ∧
      ∀ k, startGame (applyOps (claimBingo g socketId).1 ops) k =
        applyOps (claimBingo g socketId).1 ops) := by
  have E := claimBingo_win_eq g socketId p hstate hp hwin
  refine ⟨by rw [E], by rw [E]; rfl, by rw [E]; rfl, by rw [E]; rfl, ?_⟩
  intro ops hops
  have hfin : ((claimBingo g socketId).1).gameState = GState.finished := by
    rw [E]
    rfl
  have hfin2 := applyOps_finished ops (claimBingo g socketId).1 hfin hops
  exact ⟨hfin2, fun k => startGame_noop_finished _ hfin2 k⟩

/-- A playing demo room whose player has marked nothing yet. -/
def playingDemoGame : Game :=
  applyOps (initGame "room3") [Op.join 0 "carol" (fun _ => 0), Op.start 0]

/-- The player held by `playingDemoGame`. -/
def carolPlayer : Player :=
  { id := 0, name := "carol", card := generateBingoCard (fun _ => 0), markedCells := ∅ }

/-- The row-0-marked player used by the winning-claim witness. -/
def alicePlayer : Player :=
  { id := 0
    name := "alice"
    card := generateBingoCard (fun _ => 0)
    markedCells := {0, 1, 2, 3, 4} }

/-- A playing demo room whose player has all of row 0 marked. -/
def wonDemoGame : Game :=
  { initGame "room2" with
      gameState := GState.playing
      callInterval := true
      players := [(0, alicePlayer)] }

/-- C3 witness: a false claim in the concrete playing room, rejected twice
with no state change. -/
theorem C3_witness :
    (claimBingo playingDemoGame 0).2 = [Event.invalidBingo 0] ∧
    ((claimBingo playingDemoGame 0).1).gameState = GState.playing ∧
    ((claimBingo playingDemoGame 0).1).winner = playingDemoGame.winner ∧
    claimBingo ((claimBingo playingDemoGame 0).1) 0 =
      ((claimBingo playingDemoGame 0).1, [Event.invalidBingo 0]) := by
  have h := C3_claimBingo_reject playingDemoGame 0 carolPlayer (by decide) (by decide)
    (by decide)
  exact ⟨h.1, h.2.1, h.2.2.1, h.2.2.2.2.2.2⟩

/-- C2 witness: a winning claim in the concrete room with row 0 marked. -/
theorem C2_witness :
    (claimBingo wonDemoGame 0).2 =
      [Event.gameWon "alice" (generateBingoCard (fun _ => 0))
        (insert freeIndex {0, 1, 2, 3, 4})] ∧
    ((claimBingo wonDemoGame 0).1).gameState = GState.finished ∧
    ((claimBingo wonDemoGame 0).1).winner = some "alice" ∧
    ((claimBingo wonDemoGame 0).1).callInterval = false ∧
    (applyOps (claimBingo wonDemoGame 0).1 [Op.start 3]).gameState =
      GState.finished ∧
    startGame (applyOps (claimBingo wonDemoGame 0).1 [Op.start 3]) 5 =
      applyOps (claimBingo wonDemoGame 0).1 [Op.start 3] := by
  have h := C2_claimBingo_win wonDemoGame 0 alicePlayer rfl (by decide) (by decide)
  have h5 := h.2.2.2.2 [Op.start 3] (by decide)
  exact ⟨h.1, h.2.1, h.2.2.1, h.2.2.2.1, h5.1, h5.2 5⟩

/-! ### markCell: marking condition (C4) and crash behaviour (C7) -/

/-- The marking condition of the `markCell` handler (line 237): the cell is
the Free sentinel or its value has been called. -/
def cellEligible (cell : Cell) (called : List Nat) : Bool :=
  match cell with
  | Cell.free => true
  | Cell.num v => called.contains v

/-- C4: for in-range coordinates against a well-formed card, `markCell`
succeeds, and it adds the linear index `row * 5 + col` to the participant's
marked set — acknowledging the mark to that participant — exactly when the
card value at `(col, row)` (column-major) is the Free sentinel or is present
in the room's draw history; otherwise the room is returned unchanged. -/
theorem C4_markCell (g : Game) (socketId : Nat) (p : Player) (row col : Nat)
    (hrow : row < 5) (hcol : col < 5)
    (hp : mapGet g.players socketId = some p)
    (hlen : p.card.length = 5)
    (hcols : ∀ c ∈ p.card, c.length = 5) :
    markCell g socketId (row : Int) (col : Int) =
      (if cellEligible ((p.card.getD col []).getD row (Cell.num 0))
          g.calledNumbers then
        Except.ok
          (updatePlayer g socketId
            { p with markedCells := insert (row * 5 + col) p.markedCells },
           [Event.cellMarked socketId (row : Int) (col : Int)])
      else
        Except.ok (g, [])) := by
  have hcol5 : col < p.card.length := by rw [hlen]; exact hcol
  have hjcol : jsIndex p.card (col : Int) = some (p.card.getD col []) := by
    unfold jsIndex
    rw [if_pos (Int.natCast_nonneg col), Int.toNat_natCast,
      List.getD_eq_getElem p.card [] hcol5]
    exact List.getElem?_eq_getElem hcol5
  have hmem : p.card.getD col [] ∈ p.card := by
    rw [List.getD_eq_getElem p.card [] hcol5]
    exact List.getElem_mem hcol5
  have hrow5 : row < (p.card.getD col []).length := by
    rw [hcols _ hmem]
    exact hrow
  have hjrow : jsIndex (p.card.getD col []) (row : Int) =
      some ((p.card.getD col []).getD row (Cell.num 0)) := by
    unfold jsIndex
    rw [if_pos (Int.natCast_nonneg row), Int.toNat_natCast,
      List.getD_eq_getElem _ (Cell.num 0) hrow5]
    exact List.getElem?_eq_getElem hrow5
  have hidx : ((row : Int) * 5 + (col : Int)).toNat = row * 5 + col := by omega
  rcases hcell : (p.card.getD col []).getD row (Cell.num 0) with _ | v
  · simp only [markCell, hp, hjcol, hjrow, hcell, cellEligible, if_true]
    rw [hidx]
  · by_cases hcv : g.calledNumbers.contains v = true
    · simp only [markCell, hp, hjcol, hjrow, hcell, cellEligible, hcv, if_true]
      rw [hidx]
    · have hcv2 : g.calledNumbers.contains v = false := by
        cases hb : g.calledNumbers.contains v
        · rfl
        · exact absurd hb hcv
      simp only [markCell, hp, hjcol, hjrow, hcell, cellEligible, hcv2,
        Bool.false_eq_true, if_false]

/-- C4 witness: the demo player's cell (0, 0) holds an uncalled number, so
marking it is rejected and the room is unchanged. -/
theorem C4_witness :
    markCell demoGame 0 ((0 : Nat) : Int) ((0 : Nat) : Int) =
      (if cellEligible ((demoPlayer.card.getD 0 []).getD 0 (Cell.num 0))
          demoGame.calledNumbers then
        Except.ok
          (updatePlayer demoGame 0
            { demoPlayer with markedCells := insert (0 * 5 + 0) demoPlayer.markedCells },
           [Event.cellMarked 0 ((0 : Nat) : Int) ((0 : Nat) : Int)])
      else
        Except.ok (demoGame, [])) :=
  C4_markCell demoGame 0 demoPlayer 0 0 (by decide) (by decide) (by decide)
    (by decide) (by decide)

/-- C7 (amended): `markCell` with an integer `col` inside 0..4, against a room
whose players all hold 5-column cards, returns normally for every integer
`row` (marking the cell or silently no-oping); but a `col` outside 0..4 makes
the handler read a property of `undefined` and throw, so the original claim
that no payload crashes the core fails. -/
theorem C7_markCell_no_crash (g : Game) (socketId : Nat) (row col : Int)
    (hcol0 : 0 ≤ col) (hcol5 : col < 5)
    (hcards : ∀ q ∈ g.players, (q.2).card.length = 5) :
    ∃ r, markCell g socketId row col = Except.ok r := by
  rcases hm : mapGet g.players socketId with _ | p
  · exact ⟨(g, []), by simp only [markCell, hm]⟩
  · have hpmem : (socketId, p) ∈ g.players := mapGet_mem _ _ _ hm
    have hclen : p.card.length = 5 := hcards (socketId, p) hpmem
    have hcn : col.toNat < p.card.length := by rw [hclen]; omega
    have hjc : jsIndex p.card col = some (p.card.getD col.toNat []) := by
      unfold jsIndex
      rw [if_pos hcol0, List.getD_eq_getElem p.card [] hcn]
      exact List.getElem?_eq_getElem hcn
    by_cases hsm : (match jsIndex (p.card.getD col.toNat []) row with
        | some Cell.free => true
        | some (Cell.num v) => g.calledNumbers.contains v
        | none => false) = true
    · refine ⟨(updatePlayer g socketId
        { p with markedCells := insert (row * 5 + col).toNat p.markedCells },
        [Event.cellMarked socketId row col]), ?_⟩
      simp only [markCell, hm, hjc, hsm, if_true]
    · refine ⟨(g, []), ?_⟩
      simp only [markCell, hm, hjc]
      rw [if_neg hsm]

/-- C7 witness: an in-range column with an out-of-range row merely no-ops. -/
theorem C7_witness : ∃ r, markCell demoGame 0 100 3 = Except.ok r :=
  C7_markCell_no_crash demoGame 0 100 3 (by decide) (by decide) (by decide)

/-- C7 counterexample: in the demo room, `markCell` with `row = 0, col = 5`
dereferences `card[5]` — `undefined` in JS — and throws a TypeError, so the
core does crash on an integer payload outside 0..4. -/
theorem C7_counterexample : markCell demoGame 0 0 5 = Except.error () := rfl

/-! ### Card generation (C9) -/

/-- The non-Free numeric values of a column of cells. -/
def colNums (cells : List Cell) : List Nat :=
  cells.filterMap (fun c => match c with | Cell.free => none | Cell.num v => some v)

/-- All non-Free values of a card, column by column. -/
def cardNums (card : Card) : List Nat := (card.map colNums).flatten

lemma colNums_free_cons (cs : List Cell) : colNums (Cell.free :: cs) = colNums cs := rfl

lemma colNums_num_cons (v : Nat) (cs : List Cell) :
    colNums (Cell.num v :: cs) = v :: colNums cs := rfl

lemma getD_not_mem_eraseIdx :
    ∀ (l : List Nat) (i : Nat), l.Nodup → i < l.length → l.getD i 0 ∉ l.eraseIdx i := by
  intro l
  induction l with
  | nil => intro i _ hi; simp at hi
  | cons a t ih =>
    intro i hnd hi
    rw [List.nodup_cons] at hnd
    cases i with
    | zero =>
      simp only [List.getD_cons_zero, List.eraseIdx_cons_zero]
      exact hnd.1
    | succ j =>
      have hj : j < t.length := by simpa using hi
      simp only [List.getD_cons_succ, List.eraseIdx_cons_succ, List.mem_cons, not_or]
      constructor
      · intro hEq
        apply hnd.1
        rw [← hEq, List.getD_eq_getElem t 0 hj]
        exact List.getElem_mem hj
      · exact ih j hnd.2 hj

lemma genColCells_spec (col : Nat) (rand : Nat → Nat) :
    ∀ (rowsLeft row : Nat) (available : List Nat) (ctr : Nat),
      available.Nodup → rowsLeft ≤ available.length →
      (genColCells col rand rowsLeft row available ctr).1.length = rowsLeft ∧
      (∀ v ∈ colNums (genColCells col rand rowsLeft row available ctr).1,
        v ∈ available) ∧
      (colNums (genColCells col rand rowsLeft row available ctr).1).Nodup := by
  intro rowsLeft
  induction rowsLeft with
  | zero =>
    intro row available ctr _ _
    exact ⟨rfl, by simp [genColCells, colNums], by simp [genColCells, colNums]⟩
  | succ n ih =>
    intro row available ctr hnd hle
    by_cases hfree : (col == 2 && row == 2) = true
    · have hrec := ih (row + 1) available ctr hnd (Nat.le_of_succ_le hle)
      simp only [genColCells]
      rw [if_pos hfree]
      refine ⟨?_, ?_, ?_⟩
      · simp [hrec.1]
      · intro v hv
        rw [colNums_free_cons] at hv
        exact hrec.2.1 v hv
      · rw [colNums_free_cons]
        exact hrec.2.2
    · have hpos : 0 < available.length := Nat.lt_of_lt_of_le (Nat.succ_pos n) hle
      have hilt : rand ctr % available.length < available.length := Nat.mod_lt _ hpos
      have hvmem : available.getD (rand ctr % available.length) 0 ∈ available := by
        rw [List.getD_eq_getElem available 0 hilt]
        exact List.getElem_mem hilt
      have hnotmem := getD_not_mem_eraseIdx available (rand ctr % available.length) hnd hilt
      have hrec := ih (row + 1) (available.eraseIdx (rand ctr % available.length))
        (ctr + 1) (List.Nodup.eraseIdx _ hnd)
        (by rw [List.length_eraseIdx_of_lt hilt]; omega)
      simp only [genColCells, spliceOut]
      rw [if_neg hfree]
      refine ⟨?_, ?_, ?_⟩
      · simp [hrec.1]
      · intro v hv
        rw [colNums_num_cons] at hv
        rcases List.mem_cons.mp hv with rfl | hv2
        · exact hvmem
        · exact List.mem_of_mem_eraseIdx (hrec.2.1 v hv2)
      · rw [colNums_num_cons, List.nodup_cons]
        exact ⟨fun hmem => hnotmem (hrec.2.1 _ hmem), hrec.2.2⟩

lemma generateBingoCard_eq (rand : Nat → Nat) :
    generateBingoCard rand =
      [(genColCells 0 rand 5 0 (List.range' 1 15) 0).1,
       (genColCells 1 rand 5 0 (List.range' 16 15) 5).1,
       (genColCells 2 rand 5 0 (List.range' 31 15) 10).1,
       (genColCells 3 rand 5 0 (List.range' 46 15) 14).1,
       (genColCells 4 rand 5 0 (List.range' 61 15) 19).1] := by
  show genCols rand 0 0 colRanges = _
  simp [genCols, colRanges, genColCells, spliceOut]

lemma genColCells_col2_getD (rand : Nat → Nat) (available : List Nat) (ctr : Nat) :
    ((genColCells 2 rand 5 0 available ctr).1).getD 2 (Cell.num 0) = Cell.free := by
  simp [genColCells, spliceOut]

lemma colNums_bounds (col : Nat) (rand : Nat → Nat) (mn : Nat) (ctr : Nat) :
    ∀ v ∈ colNums (genColCells col rand 5 0 (List.range' mn 15) ctr).1,
      mn ≤ v ∧ v < mn + 15 := by
  intro v hv
  have hmem := (genColCells_spec col rand 5 0 (List.range' mn 15) ctr
    (List.nodup_range' mn 15) (by simp)).2.1 v hv
  rwa [List.mem_range'_1] at hmem

lemma colNums_disjoint (c1 c2 : Nat) (rand : Nat → Nat) (m1 m2 t1 t2 : Nat)
    (h : m1 + 15 ≤ m2) :
    (colNums (genColCells c1 rand 5 0 (List.range' m1 15) t1).1).Disjoint
      (colNums (genColCells c2 rand 5 0 (List.range' m2 15) t2).1) := by
  intro x hx1 hx2
  have h1 := colNums_bounds c1 rand m1 t1 x hx1
  have h2 := colNums_bounds c2 rand m2 t2 x hx2
  omega

/-- C9: every generated card, for every random stream, has 5 columns of 5
cells; each column's numeric values lie in that column's declared 15-value
range (column `c` covers `15c+1 .. 15c+15`); all non-Free values on the card
are pairwise distinct; and the centre cell (row 2, col 2) is the Free
sentinel. -/
theorem C9_generateBingoCard (rand : Nat → Nat) :
    (generateBingoCard rand).length = 5 ∧
    (∀ c ∈ generateBingoCard rand, c.length = 5) ∧
    (∀ col, col < 5 → ∀ v ∈ colNums ((generateBingoCard rand).getD col []),
      15 * col + 1 ≤ v ∧ v ≤ 15 * col + 15) ∧
    (cardNums (generateBingoCard rand)).Nodup ∧
    ((generateBingoCard rand).getD 2 []).getD 2 (Cell.num 0) = Cell.free := by
  have hEq := generateBingoCard_eq rand
  have hs0 := genColCells_spec 0 rand 5 0 (List.range' 1 15) 0
    (List.nodup_range' 1 15) (by simp)
  have hs1 := genColCells_spec 1 rand 5 0 (List.range' 16 15) 5
    (List.nodup_range' 16 15) (by simp)
  have hs2 := genColCells_spec 2 rand 5 0 (List.range' 31 15) 10
    (List.nodup_range' 31 15) (by simp)
  have hs3 := genColCells_spec 3 rand 5 0 (List.range' 46 15) 14
    (List.nodup_range' 46 15) (by simp)
  have hs4 := genColCells_spec 4 rand 5 0 (List.range' 61 15) 19
    (List.nodup_range' 61 15) (by simp)
  refine ⟨?_, ?_, ?_, ?_, ?_⟩
  · rw [hEq]
    rfl
  · intro c hc
    rw [hEq] at hc
    simp only [List.mem_cons, List.not_mem_nil, or_false] at hc
    rcases hc with rfl | rfl | rfl | rfl | rfl
    · exact hs0.1
    · exact hs1.1
    · exact hs2.1
    · exact hs3.1
    · exact hs4.1
  · intro col hcol v hv
    rw [hEq] at hv
    interval_cases col
    · simp only [List.getD_cons_zero] at hv
      have := colNums_bounds 0 rand 1 0 v hv
      omega
    · simp only [List.getD_cons_succ, List.getD_cons_zero] at hv
      have := colNums_bounds 1 rand 16 5 v hv
      omega
    · simp only [List.getD_cons_succ, List.getD_cons_zero] at hv
      have := colNums_bounds 2 rand 31 10 v hv
      omega
    · simp only [List.getD_cons_succ, List.getD_cons_zero] at hv
      have := colNums_bounds 3 rand 46 14 v hv
      omega
    · simp only [List.getD_cons_succ, List.getD_cons_zero] at hv
      have := colNums_bounds 4 rand 61 19 v hv
      omega
  · rw [hEq]
    unfold cardNums
    rw [List.nodup_flatten]
    simp only [List.map_cons, List.map_nil]
    constructor
    · intro l hl
      simp only [List.mem_cons, List.not_mem_nil, or_false] at hl
      rcases hl with rfl | rfl | rfl | rfl | rfl
      · exact hs0.2.2
      · exact hs1.2.2
      · exact hs2.2.2
      · exact hs3.2.2
      · exact hs4.2.2
    · refine List.Pairwise.cons ?_ (List.Pairwise.cons ?_ (List.Pairwise.cons ?_
        (List.Pairwise.cons ?_ (List.Pairwise.cons ?_ List.Pairwise.nil))))
      · intro l hl
        simp only [List.mem_cons, List.not_mem_nil, or_false] at hl
        rcases hl with rfl | rfl | rfl | rfl
        · exact colNums_disjoint 0 1 rand 1 16 0 5 (by omega)
        · exact colNums_disjoint 0 2 rand 1 31 0 10 (by omega)
        · exact colNums_disjoint 0 3 rand 1 46 0 14 (by omega)
        · exact colNums_disjoint 0 4 rand 1 61 0 19 (by omega)
      · intro l hl
        simp only [List.mem_cons, List.not_mem_nil, or_false] at hl
        rcases hl with rfl | rfl | rfl
        · exact colNums_disjoint 1 2 rand 16 31 5 10 (by omega)
        · exact colNums_disjoint 1 3 rand 16 46 5 14 (by omega)
        · exact colNums_disjoint 1 4 rand 16 61 5 19 (by omega)
      · intro l hl
        simp only [List.mem_cons, List.not_mem_nil, or_false] at hl
        rcases hl with rfl | rfl
        · exact colNums_disjoint 2 3 rand 31 46 10 14 (by omega)
        · exact colNums_disjoint 2 4 rand 31 61 10 19 (by omega)
      · intro l hl
        simp only [List.mem_cons, List.not_mem_nil, or_false] at hl
        rcases hl with rfl
        exact colNums_disjoint 3 4 rand 46 61 14 19 (by omega)
      · intro l hl
        simp at hl
  · rw [hEq]
    simp only [List.getD_cons_succ, List.getD_cons_zero]
    exact genColCells_col2_getD rand (List.range' 31 15) 10

/-- C9 witness: on the all-zeros stream, value 1 sits in column 0 within its
declared range, and the centre cell is Free. -/
theorem C9_witness :
    (15 * 0 + 1 ≤ 1 ∧ 1 ≤ 15 * 0 + 15) ∧
    ((generateBingoCard (fun _ => 0)).getD 2 []).getD 2 (Cell.num 0) = Cell.free :=
  ⟨(C9_generateBingoCard (fun _ => 0)).2.2.1 0 (by decide) 1 (by decide),
   (C9_generateBingoCard (fun _ => 0)).2.2.2.2⟩

/-! ### The draw pool (C8) -/

lemma availableNumbers_sub (g : Game) :
    ∀ n ∈ availableNumbers g, (1 ≤ n ∧ n ≤ 75) ∧ n ∉ g.calledNumbers := by
  intro n hn
  unfold availableNumbers at hn
  rw [List.mem_filter] at hn
  rcases hn with ⟨hr, hc⟩
  rw [List.mem_range'_1] at hr
  refine ⟨by omega, ?_⟩
  intro hmem
  simp [hmem] at hc

lemma availableNumbers_ne_nil (g : Game) (_hnd : g.calledNumbers.Nodup)
    (_hsub : ∀ x ∈ g.calledNumbers, 1 ≤ x ∧ x ≤ 75)
    (hlen : g.calledNumbers.length < 75) :
    (availableNumbers g).isEmpty = false := by
  cases hav : (availableNumbers g).isEmpty
  · rfl
  · exfalso
    have hempty : availableNumbers g = [] := by
      cases hl : availableNumbers g
      · rfl
      · rw [hl] at hav
        simp at hav
    have hall : ∀ x ∈ List.range' 1 75, x ∈ g.calledNumbers := by
      intro x hx
      have hfx := List.filter_eq_nil_iff.mp hempty x hx
      simpa using hfx
    have hsubset : (List.range' 1 75).toFinset ⊆ g.calledNumbers.toFinset := by
      intro x hx
      rw [List.mem_toFinset] at hx ⊢
      exact hall x hx
    have hcard1 : (List.range' 1 75).toFinset.card = 75 := by
      rw [List.toFinset_card_of_nodup (List.nodup_range' 1 75), List.length_range']
    have hcard2 : g.calledNumbers.toFinset.card ≤ g.calledNumbers.length :=
      g.calledNumbers.toFinset_card_le
    have hmono := Finset.card_le_card hsubset
    omega

lemma callNumber_success (g : Game) (k : Nat)
    (hne : (availableNumbers g).isEmpty = false) :
    ∃ n, callNumber g k =
        (some n,
          { g with
              calledNumbers := g.calledNumbers ++ [n]
              currentNumber := some n }) ∧
      n ∈ availableNumbers g := by
  have hpos : 0 < (availableNumbers g).length := by
    cases hl : availableNumbers g
    · rw [hl] at hne
      simp at hne
    · simp
  have hlt : k % (availableNumbers g).length < (availableNumbers g).length :=
    Nat.mod_lt _ hpos
  refine ⟨(availableNumbers g).getD (k % (availableNumbers g).length) 0, ?_, ?_⟩
  · unfold callNumber
    dsimp only
    rw [hne]
    rfl
  · rw [List.getD_eq_getElem _ 0 hlt]
    exact List.getElem_mem hlt

lemma runDraws_spec :
    ∀ (ks : List Nat) (g : Game),
      g.calledNumbers.Nodup → (∀ x ∈ g.calledNumbers, 1 ≤ x ∧ x ≤ 75) →
      g.calledNumbers.length + ks.length ≤ 75 →
      (runDraws g ks).calledNumbers.Nodup ∧
      (∀ x ∈ (runDraws g ks).calledNumbers, 1 ≤ x ∧ x ≤ 75) ∧
      (runDraws g ks).calledNumbers.length = g.calledNumbers.length + ks.length ∧
      (runDraws g ks).gameState = g.gameState ∧
      (runDraws g ks).callInterval = g.callInterval := by
  intro ks
  induction ks with
  | nil =>
    intro g h1 h2 _
    exact ⟨h1, h2, by simp [runDraws], rfl, rfl⟩
  | cons k t ih =>
    intro g h1 h2 hle
    have hlen : g.calledNumbers.length < 75 := by
      simp only [List.length_cons] at hle
      omega
    have hne := availableNumbers_ne_nil g h1 h2 hlen
    obtain ⟨n, hcn, hmem⟩ := callNumber_success g k hne
    have hn := availableNumbers_sub g n hmem
    have hnd2 : (g.calledNumbers ++ [n]).Nodup := by
      rw [List.nodup_append]
      refine ⟨h1, List.nodup_singleton n, ?_⟩
      intro a ha hb
      rw [List.mem_singleton] at hb
      subst hb
      exact hn.2 ha
    have hsub2 : ∀ x ∈ g.calledNumbers ++ [n], 1 ≤ x ∧ x ≤ 75 := by
      intro x hx
      rcases List.mem_append.mp hx with hx1 | hx2
      · exact h2 x hx1
      · rw [List.mem_singleton] at hx2
        subst hx2
        exact hn.1
    have hstep : runDraws g (k :: t) =
        runDraws
          { g with
              calledNumbers := g.calledNumbers ++ [n]
              currentNumber := some n } t := by
      show runDraws ((callNumber g k).2) t = _
      rw [hcn]
    rw [hstep]
    have hrec := ih
      { g with
          calledNumbers := g.calledNumbers ++ [n]
          currentNumber := some n } hnd2 hsub2
      (by
        dsimp only
        simp only [List.length_append, List.length_singleton, List.length_cons, List.length_nil] at hle ⊢
        omega)
    refine ⟨hrec.1, hrec.2.1, ?_, hrec.2.2.2.1, hrec.2.2.2.2⟩
    rw [hrec.2.2.1]
    dsimp only
    simp only [List.length_append, List.length_singleton, List.length_cons, List.length_nil]
    omega

/-- C8: a draw never returns a value already in the room's history; starting
from an empty history, any 75 draws succeed one by one and leave a
duplicate-free 75-entry history containing every value of 1..75, and the next
draw returns no value and cancels the draw timer (Exhausted). -/
theorem C8_drawPool (g : Game) (hempty : g.calledNumbers = []) (ks : List Nat)
    (hlen : ks.length = 75) (k75 : Nat) :
    (∀ (g2 : Game) (k n : Nat) (g3 : Game),
        callNumber g2 k = (some n, g3) → n ∉ g2.calledNumbers) ∧
    (runDraws g ks).calledNumbers.length = 75 ∧
    (runDraws g ks).calledNumbers.Nodup ∧
    (∀ n, 1 ≤ n → n ≤ 75 → n ∈ (runDraws g ks).calledNumbers) ∧
    (callNumber (runDraws g ks) k75).1 = none ∧
    ((callNumber (runDraws g ks) k75).2).callInterval = false := by
  have fresh : ∀ (g2 : Game) (k n : Nat) (g3 : Game),
      callNumber g2 k = (some n, g3) → n ∉ g2.calledNumbers := by
    intro g2 k n g3 h
    cases hne : (availableNumbers g2).isEmpty
    · obtain ⟨m, hcn, hmem⟩ := callNumber_success g2 k hne
      rw [hcn] at h
      simp only [Prod.mk.injEq, Option.some.injEq] at h
      rcases h with ⟨rfl, _⟩
      exact (availableNumbers_sub g2 m hmem).2
    · unfold callNumber at h
      dsimp only at h
      rw [hne] at h
      simp at h
  have hspec := runDraws_spec ks g (by rw [hempty]; exact List.nodup_nil)
    (by rw [hempty]; intro x hx; simp at hx)
    (by rw [hempty]; simp [hlen])
  have hlen75 : (runDraws g ks).calledNumbers.length = 75 := by
    rw [hspec.2.2.1, hempty, hlen]
    rfl
  have hfull : ∀ n, 1 ≤ n → n ≤ 75 → n ∈ (runDraws g ks).calledNumbers := by
    intro n h1n h2n
    have hsubset : (runDraws g ks).calledNumbers.toFinset ⊆ Finset.Icc 1 75 := by
      intro x hx
      rw [List.mem_toFinset] at hx
      have hb := hspec.2.1 x hx
      rw [Finset.mem_Icc]
      omega
    have hcard : (runDraws g ks).calledNumbers.toFinset.card = 75 := by
      rw [List.toFinset_card_of_nodup hspec.1, hlen75]
    have hIcc : (Finset.Icc 1 75).card = 75 := by
      rw [Nat.card_Icc]
    have heq : (runDraws g ks).calledNumbers.toFinset = Finset.Icc 1 75 :=
      Finset.eq_of_subset_of_card_le hsubset (by omega)
    have hn : n ∈ (runDraws g ks).calledNumbers.toFinset := by
      rw [heq, Finset.mem_Icc]
      omega
    rwa [List.mem_toFinset] at hn
  have hexh : (availableNumbers (runDraws g ks)).isEmpty = true := by
    have hnil : availableNumbers (runDraws g ks) = [] := by
      apply List.filter_eq_nil_iff.mpr
      intro a ha
      rw [List.mem_range'_1] at ha
      have hmem := hfull a (by omega) (by omega)
      simp [hmem]
    rw [availableNumbers] at hnil ⊢
    rw [hnil]
    rfl
  refine ⟨fresh, hlen75, hspec.1, hfull, ?_, ?_⟩
  · unfold callNumber
    dsimp only
    rw [hexh]
    rfl
  · unfold callNumber
    dsimp only
    rw [hexh]
    rfl

/-- C8 witness: the draw-pool facts instantiated with 75 first-choice draws
from a fresh room. -/
theorem C8_witness :
    (callNumber (runDraws (initGame "draws") (List.replicate 75 0)) 0).1 = none ∧
    ((callNumber (runDraws (initGame "draws") (List.replicate 75 0)) 0).2).callInterval =
      false := by
  have h := C8_drawPool (initGame "draws") rfl (List.replicate 75 0) (by simp) 0
  exact ⟨h.2.2.2.2.1, h.2.2.2.2.2⟩

/-! ### Timer-handle invariant (C5) -/

lemma checkWin_snd_fields (g : Game) (socketId : Nat) :
    ((checkWin g socketId).2).gameState = g.gameState ∧
    ((checkWin g socketId).2).callInterval = g.callInterval := by
  unfold checkWin
  cases mapGet g.players socketId with
  | none => exact ⟨rfl, rfl⟩
  | some p => exact ⟨rfl, rfl⟩

lemma step_timer_inv (g : Game)
    (h : g.callInterval = true → g.gameState = GState.playing) (op : Op) :
    (step g op).callInterval = true → (step g op).gameState = GState.playing := by
  cases op with
  | join socketId playerName rand =>
    show (joinGame g socketId playerName rand).1.callInterval = true →
      (joinGame g socketId playerName rand).1.gameState = GState.playing
    rw [joinGame_fst]
    exact h
  | leave socketId =>
    show (removePlayer g socketId).callInterval = true →
      (removePlayer g socketId).gameState = GState.playing
    unfold removePlayer
    dsimp only
    split
    · intro hci
      simp [stopGame] at hci
    · exact h
  | start k =>
    show (startGame g k).callInterval = true →
      (startGame g k).gameState = GState.playing
    unfold startGame
    split
    · exact h
    · intro _
      exact ((callNumber_snd_state _ k).1).trans rfl
  | mark socketId row col =>
    show (match markCell g socketId row col with
      | Except.ok r => r.1
      | Except.error _ => g).callInterval = true →
      (match markCell g socketId row col with
      | Except.ok r => r.1
      | Except.error _ => g).gameState = GState.playing
    rcases hmc : markCell g socketId row col with e | ⟨g2, evts⟩
    · exact h
    · intro hci
      have hst := markCell_ok_state g socketId row col g2 evts hmc
      rw [hst.1]
      exact h (by rw [← hst.2.1]; exact hci)
  | claim socketId =>
    show ((claimBingo g socketId).1).callInterval = true →
      ((claimBingo g socketId).1).gameState = GState.playing
    unfold claimBingo
    dsimp only
    split
    · exact h
    · split
      · exact h
      · split
        · intro hci
          simp [stopGame] at hci
        · intro hci
          rw [(checkWin_snd_fields g socketId).1]
          exact h (by rw [← (checkWin_snd_fields g socketId).2]; exact hci)
  | reset rands =>
    show ((newGame g rands).1).callInterval = true →
      ((newGame g rands).1).gameState = GState.playing
    intro hci
    simp [newGame, stopGame] at hci
  | tick k =>
    show (if g.callInterval = true then (callNumber g k).2 else g).callInterval = true →
      (if g.callInterval = true then (callNumber g k).2 else g).gameState =
        GState.playing
    split
    · rename_i hcase
      intro _
      rw [(callNumber_snd_state g k).1]
      exact h hcase
    · exact h

/-- C5 (amended): in every reachable room state, the timer-handle direction of
the claimed invariant holds — a present draw-timer handle implies the room is
Playing.  The converse direction of the claimed iff fails on the draw tick
that exhausts the pool: it cancels the timer while the state remains Playing
(see the counterexample). -/
theorem C5_timer_only_if_playing (roomId : String) (ops : List Op)
    (hci : (applyOps (initGame roomId) ops).callInterval = true) :
    (applyOps (initGame roomId) ops).gameState = GState.playing := by
  have key : ∀ (ops2 : List Op) (g : Game),
      (g.callInterval = true → g.gameState = GState.playing) →
      ((applyOps g ops2).callInterval = true →
        (applyOps g ops2).gameState = GState.playing) := by
    intro ops2
    induction ops2 with
    | nil => intro g hg; exact hg
    | cons op t ih =>
      intro g hg
      show (applyOps (step g op) t).callInterval = true →
        (applyOps (step g op) t).gameState = GState.playing
      exact ih (step g op) (step_timer_inv g hg op)
  exact key ops (initGame roomId) (fun hc => absurd hc (by simp [initGame])) hci

/-- C5 witness: after a join and a start the handle is present, and the
invariant direction yields Playing. -/
theorem C5_witness :
    (applyOps (initGame "w") [Op.join 0 "a" (fun _ => 0), Op.start 0]).gameState =
      GState.playing :=
  C5_timer_only_if_playing "w" [Op.join 0 "a" (fun _ => 0), Op.start 0] (by decide)

set_option maxRecDepth 100000 in
set_option maxHeartbeats 4000000 in
/-- C5 counterexample: the reachable room obtained by one join, a start and 75
timer ticks has drawn all 75 values; the exhausting tick cancelled the timer
while the lifecycle state is still Playing, refuting the claimed iff. -/
theorem C5_counterexample :
    (applyOps (initGame "r") ([Op.join 0 "a" (fun _ => 0), Op.start 0] ++
        List.replicate 75 (Op.tick 0))).gameState = GState.playing ∧
    (applyOps (initGame "r") ([Op.join 0 "a" (fun _ => 0), Op.start 0] ++
        List.replicate 75 (Op.tick 0))).callInterval = false :=
  ⟨by decide, by decide⟩
